import Mathlib

/-!
Verification of the Levenshtein edit-distance core of typosee.c
(functions min3, levenshtein_matrix_create, levenshtein_matrix_calculate,
levenshtein_distance).

The C code builds a (len1+1) x (len2+1) matrix of `struct edit` cells.
Border cells (row 0 / column 0) are written by levenshtein_matrix_create
with score i (resp. j), prev = NULL and arg1 = arg2 = 0; their type and
pos fields are left unset by the C code and are never read (the backtrace
stops as soon as it reaches a cell with prev == NULL), so the embedding
fixes them to NONE and 0.  Interior cells are written exactly once by the
double loop of levenshtein_matrix_calculate, each from its three already
written neighbours, so the matrix is embedded as the recursive function
`mat` computing each cell from its neighbours; the fill order of the loops
is irrelevant because each cell depends only on cells with smaller indices.
-/

/-- Edit kinds, from the C enum edit_type (INSERTION, DELETION,
SUBSTITUTION, NONE). -/
inductive edit_type where
  | INSERTION
  | DELETION
  | SUBSTITUTION
  | NONE
deriving DecidableEq, Repr

/-- One cell of the DP matrix / one entry of the edit script, from
struct edit.  The C `prev` field is a pointer to another cell of the same
matrix; the embedding stores the (row, column) index pair of that cell,
`none` standing for NULL. -/
structure edit where
  score : Nat
  type : edit_type
  arg1 : Char
  arg2 : Char
  pos : Nat
  prev : Option (Nat × Nat)
deriving DecidableEq, Repr

/-- min3 from typosee.c, lines 67-76: strict comparisons, falling through
to the third argument. -/
def min3 (a b c : Nat) : Nat :=
  if a < b ∧ a < c then a
  else if b < a ∧ b < c then b
  else c

/-- substitution_cost from lines 87-92: 0 iff str1[i-1] == str2[j-1]
(with i-1, j-1 written here as the 0-based indices i, j).  The default of
getD is irrelevant: the cost is only ever used at in-range indices. -/
def substitution_cost (a b : List Char) (i j : Nat) : Nat :=
  if a.getD i (Char.ofNat 0) = b.getD j (Char.ofNat 0) then 0 else 1

/-- Body of the inner loop of levenshtein_matrix_calculate, lines 93-117:
given the three candidate scores del / ins / subst, the substitution cost,
the two characters, the index pairs of the up / left / diagonal
neighbours, and the position i-1, build the cell. -/
def cell_fill (del ins subst cost : Nat) (x y : Char)
    (pdel pins psub : Nat × Nat) (pos : Nat) : edit :=
  if min3 del ins subst = del then
    { score := min3 del ins subst, type := .DELETION, arg1 := x, arg2 := y,
      pos := pos, prev := some pdel }
  else if min3 del ins subst = ins then
    { score := min3 del ins subst, type := .INSERTION, arg1 := x, arg2 := y,
      pos := pos, prev := some pins }
  else
    { score := min3 del ins subst,
      type := if 0 < cost then .SUBSTITUTION else .NONE,
      arg1 := x, arg2 := y, pos := pos, prev := some psub }

/-- A border cell as written by levenshtein_matrix_create, lines 141-153:
score set to the border index, prev = NULL, arg1 = arg2 = 0.  The C code
leaves type and pos of border cells unset and never reads them (the
backtrace stops at the first cell with prev == NULL), so the embedding
fixes them to NONE and 0. -/
def mat_border (s : Nat) : edit :=
  { score := s, type := .NONE, arg1 := Char.ofNat 0, arg2 := Char.ofNat 0,
    pos := 0, prev := none }

/-- Row i+1 of the DP matrix, given row i as the function up: the cell at
column j+1 is built by the loop body of levenshtein_matrix_calculate from
its up, left and diagonal neighbours. -/
def rowFill (a b : List Char) (up : Nat → edit) (i : Nat) : Nat → edit
  | 0 => mat_border (i+1)
  | j+1 =>
    cell_fill ((up (j+1)).score + 1)
      ((rowFill a b up i j).score + 1)
      ((up j).score + substitution_cost a b i j)
      (substitution_cost a b i j)
      (a.getD i (Char.ofNat 0)) (b.getD j (Char.ofNat 0))
      (i, j+1) (i+1, j) (i, j) i

/-- The DP matrix: mat a b i j is the cell mat[i][j] of the C code.
Border cells come from levenshtein_matrix_create (lines 141-153), interior
cells from the loop body of levenshtein_matrix_calculate (lines 84-117):
del = mat[i-1][j].score + 1, ins = mat[i][j-1].score + 1,
subst = mat[i-1][j-1].score + substitution_cost, best = min3(del,ins,subst),
then type and prev by the branch on best == del / best == ins / otherwise,
with NONE when the substitution branch wins with cost 0.  The loops fill
each cell exactly once from already filled neighbours, so the matrix is
this recurrence regardless of fill order. -/
def mat (a b : List Char) : Nat → Nat → edit
  | 0, j => mat_border j
  | i+1, j => rowFill a b (mat a b i) i j

/-- Return value of levenshtein_matrix_calculate, line 120:
mat[len1][len2].score. -/
def levenshtein_matrix_calculate (a b : List Char) : Nat :=
  (mat a b a.length b.length).score

/-- The backward walk of lines 182-189: starting from a cell, follow prev
links until a cell with prev == NULL, collecting (in discovery order,
final cell first) every visited cell whose type is not NONE.  The C code
follows pointers without a counter; every prev link strictly decreases
i + j, so a fuel of i + j is enough and the function is called with that
fuel. -/
def backtrace (a b : List Char) : Nat → Nat × Nat → List edit
  | 0, _ => []
  | fuel+1, (i, j) =>
    match (mat a b i j).prev with
    | none => []
    | some p =>
      (if (mat a b i j).type = .NONE then [] else [mat a b i j]) ++
        backtrace a b fuel p

/-- The script output parameter of levenshtein_distance: the caller's
pointer is either never written (early returns for empty strings), set to
NULL (allocation failure, including malloc(0) returning NULL), or set to
an allocated array whose entries are each either written (some cell) or
uninitialised (none). -/
inductive ScriptOut where
  | untouched
  | null
  | written (entries : List (Option edit))
deriving DecidableEq, Repr

/-- The write-back loop of lines 181-189: i starts at distance - 1 and the
collected cells are written at descending indices (Nat subtraction models
the unsigned C index). -/
def scriptWriteAux : List (Option edit) → Nat → List edit → List (Option edit)
  | arr, _, [] => arr
  | arr, i, c :: rest => scriptWriteAux (arr.set i (some c)) (i - 1) rest

/-- The script array as the caller sees it: distance slots, initially
uninitialised (none), filled by the write-back loop. -/
def scriptWrite (distance : Nat) (L : List edit) : List (Option edit) :=
  scriptWriteAux (List.replicate distance none) (distance - 1) L

/-- levenshtein_distance, lines 157-201.  matOk and scriptOk model the
success of the matrix allocation (levenshtein_matrix_create) and of the
script malloc: if len1 == 0 or len2 == 0 the other length is returned
without touching *script; if the matrix allocation fails, *script = NULL
and 0 is returned; otherwise the matrix is computed, and if the script
malloc fails (*script == NULL) distance is set to 0, else the backtrace
is written into the script array. -/
def levenshtein_distance (matOk scriptOk : Bool) (str1 str2 : List Char) :
    Nat × ScriptOut :=
  let len1 := str1.length
  let len2 := str2.length
  if len1 = 0 then (len2, .untouched)
  else if len2 = 0 then (len1, .untouched)
  else if matOk = false then (0, .null)
  else
    let distance := levenshtein_matrix_calculate str1 str2
    if scriptOk = false then (0, .null)
    else (distance,
      .written (scriptWrite distance
        (backtrace str1 str2 (len1 + len2) (len1, len2))))

/-- The entries of the script array that were actually written, in index
order: the valid edit entries a caller can read. -/
def writtenEntries : ScriptOut → List edit
  | .written arr => arr.filterMap id
  | _ => []

/-! ## General lemmas about the embedded definitions -/

/-- min3 is unchanged by swapping its first two arguments. -/
theorem min3_comm12 (a b c : Nat) : min3 a b c = min3 b a c := by
  unfold min3; split_ifs <;> omega

/-- min3 always returns the value of one of its three arguments. -/
theorem min3_choice (a b c : Nat) : min3 a b c = a ∨ min3 a b c = b ∨ min3 a b c = c := by
  unfold min3; split_ifs <;> simp

/-- When the first argument ties the three-way minimum and min3 is not in
its failure case, min3 returns the first argument. -/
theorem min3_del_of (a b c : Nat) (h : ¬(a = b ∧ a < c)) (ha : a ≤ b ∧ a ≤ c) :
    min3 a b c = a := by
  unfold min3; split_ifs <;> omega

/-- When the first argument does not tie the minimum but the second does,
min3 returns the second argument, which differs from the first. -/
theorem min3_ins_of (a b c : Nat) (ha : ¬(a ≤ b ∧ a ≤ c)) (hb : b ≤ c) :
    min3 a b c = b ∧ min3 a b c ≠ a := by
  unfold min3; split_ifs <;> omega

/-- When only the third argument attains the minimum, min3 returns it, and
it differs from the first two. -/
theorem min3_sub_of (a b c : Nat) (ha : ¬(a ≤ b ∧ a ≤ c)) (hb : ¬(b ≤ c)) :
    min3 a b c = c ∧ min3 a b c ≠ a ∧ min3 a b c ≠ b := by
  unfold min3; split_ifs <;> omega

/-- Where min3 disagrees with the true minimum it returns the third
argument with the first two equal and both smaller. -/
theorem min3_eq_third_of_eq_lt (a c : Nat) : min3 a a c = c := by
  unfold min3; split_ifs <;> omega

/-- The substitution cost is symmetric in the two strings. -/
theorem substitution_cost_symm (a b : List Char) (i j : Nat) :
    substitution_cost a b i j = substitution_cost b a j i := by
  unfold substitution_cost
  split_ifs with h1 h2 h2 <;> first | rfl | exact absurd h1.symm h2 | exact absurd h2.symm h1

/-- The score written by the loop body is min3 of the three candidates. -/
theorem cell_fill_score (d n s c : Nat) (x y : Char) (p1 p2 p3 : Nat × Nat) (pos : Nat) :
    (cell_fill d n s c x y p1 p2 p3 pos).score = min3 d n s := by
  unfold cell_fill; split_ifs <;> rfl

/-- When best == del holds, the loop body records a deletion from the
upper neighbour. -/
theorem cell_fill_del (d n s c : Nat) (x y : Char) (p1 p2 p3 : Nat × Nat) (pos : Nat)
    (h : min3 d n s = d) :
    cell_fill d n s c x y p1 p2 p3 pos =
      { score := d, type := .DELETION, arg1 := x, arg2 := y, pos := pos, prev := some p1 } := by
  unfold cell_fill; simp [h]

/-- When best == del fails and best == ins holds, the loop body records an
insertion from the left neighbour. -/
theorem cell_fill_ins (d n s c : Nat) (x y : Char) (p1 p2 p3 : Nat × Nat) (pos : Nat)
    (h1 : min3 d n s ≠ d) (h2 : min3 d n s = n) :
    cell_fill d n s c x y p1 p2 p3 pos =
      { score := n, type := .INSERTION, arg1 := x, arg2 := y, pos := pos, prev := some p2 } := by
  unfold cell_fill
  rw [if_neg (by simp [h2]; omega), if_pos (by simp [h2])]
  simp [h2]

/-- When neither best == del nor best == ins holds, the loop body records
the substitution outcome from the diagonal neighbour, NONE when the cost
is zero. -/
theorem cell_fill_sub (d n s c : Nat) (x y : Char) (p1 p2 p3 : Nat × Nat) (pos : Nat)
    (h1 : min3 d n s ≠ d) (h2 : min3 d n s ≠ n) :
    cell_fill d n s c x y p1 p2 p3 pos =
      { score := min3 d n s,
        type := if 0 < c then .SUBSTITUTION else .NONE,
        arg1 := x, arg2 := y, pos := pos, prev := some p3 } := by
  unfold cell_fill; simp [h1, h2]

/-- Bottom border of the matrix: mat[i][0].score == i. -/
theorem mat_score_left (a b : List Char) (i : Nat) : (mat a b i 0).score = i := by
  cases i <;> rfl

/-- Top border of the matrix: mat[0][j].score == j. -/
theorem mat_score_top (a b : List Char) (j : Nat) : (mat a b 0 j).score = j := by
  rfl

/-- Unfolding of an interior cell of the matrix. -/
theorem mat_succ (a b : List Char) (i j : Nat) :
    mat a b (i+1) (j+1) =
      cell_fill ((mat a b i (j+1)).score + 1)
        ((mat a b (i+1) j).score + 1)
        ((mat a b i j).score + substitution_cost a b i j)
        (substitution_cost a b i j)
        (a.getD i (Char.ofNat 0)) (b.getD j (Char.ofNat 0))
        (i, j+1) (i+1, j) (i, j) i := by
  rfl

/-- The score of an interior cell is min3 of the three candidates built
from the already filled neighbours. -/
theorem mat_score_succ (a b : List Char) (i j : Nat) :
    (mat a b (i+1) (j+1)).score =
      min3 ((mat a b i (j+1)).score + 1)
        ((mat a b (i+1) j).score + 1)
        ((mat a b i j).score + substitution_cost a b i j) := by
  rw [mat_succ]; exact cell_fill_score _ _ _ _ _ _ _ _ _ _

/-- The substitution cost is 0 or 1. -/
theorem substitution_cost_le_one (a b : List Char) (i j : Nat) :
    substitution_cost a b i j ≤ 1 := by
  unfold substitution_cost; split_ifs <;> omega

/-- Border cells have no predecessor. -/
theorem mat_prev_border (a b : List Char) (i j : Nat) (h : i = 0 ∨ j = 0) :
    (mat a b i j).prev = none := by
  rcases h with h | h
  · subst h; rfl
  · subst h; cases i <;> rfl

/-- Following a prev link decreases the score by exactly 1 on cells whose
type is an actual edit and by 0 on NONE cells: the score of a cell counts
the non-NONE edits on the predecessor chain below it. -/
theorem mat_prev_score (a b : List Char) (i j : Nat) (p : Nat × Nat)
    (h : (mat a b i j).prev = some p) :
    (mat a b i j).score =
      (mat a b p.1 p.2).score +
        (if (mat a b i j).type = edit_type.NONE then 0 else 1) := by
  match i, j with
  | i, 0 => rw [mat_prev_border a b i 0 (Or.inr rfl)] at h; exact absurd h (by simp)
  | 0, j+1 => rw [mat_prev_border a b 0 (j+1) (Or.inl rfl)] at h; exact absurd h (by simp)
  | i+1, j+1 =>
    rw [mat_succ] at h ⊢
    by_cases h1 : min3 ((mat a b i (j+1)).score + 1) ((mat a b (i+1) j).score + 1)
        ((mat a b i j).score + substitution_cost a b i j) = (mat a b i (j+1)).score + 1
    · rw [cell_fill_del _ _ _ _ _ _ _ _ _ _ h1] at h ⊢
      simp only [Option.some.injEq] at h
      subst h
      simp
    · by_cases h2 : min3 ((mat a b i (j+1)).score + 1) ((mat a b (i+1) j).score + 1)
          ((mat a b i j).score + substitution_cost a b i j) = (mat a b (i+1) j).score + 1
      · rw [cell_fill_ins _ _ _ _ _ _ _ _ _ _ h1 h2] at h ⊢
        simp only [Option.some.injEq] at h
        subst h
        simp
      · rw [cell_fill_sub _ _ _ _ _ _ _ _ _ _ h1 h2] at h ⊢
        simp only [Option.some.injEq] at h
        subst h
        have h3 : min3 ((mat a b i (j+1)).score + 1) ((mat a b (i+1) j).score + 1)
            ((mat a b i j).score + substitution_cost a b i j) =
            (mat a b i j).score + substitution_cost a b i j :=
          ((min3_choice _ _ _).resolve_left h1).resolve_left h2
        have h4 := substitution_cost_le_one a b i j
        by_cases hc : 0 < substitution_cost a b i j <;> simp [hc, h3] <;> omega

/-- The number of cells collected by the backward walk never exceeds the
score of the starting cell. -/
theorem backtrace_length_le (a b : List Char) :
    ∀ fuel i j, (backtrace a b fuel (i, j)).length ≤ (mat a b i j).score := by
  intro fuel
  induction fuel with
  | zero => intro i j; simp [backtrace]
  | succ f ih =>
    intro i j
    rw [backtrace]
    cases hp : (mat a b i j).prev with
    | none => simp
    | some p =>
      obtain ⟨p1, p2⟩ := p
      have hstep := mat_prev_score a b i j (p1, p2) hp
      have hih := ih p1 p2
      by_cases ht : (mat a b i j).type = edit_type.NONE <;>
        simp [ht] at hstep ⊢ <;> omega

/-- The backward walk never collects a NONE cell. -/
theorem backtrace_no_none (a b : List Char) :
    ∀ fuel pq e, e ∈ backtrace a b fuel pq → e.type ≠ edit_type.NONE := by
  intro fuel
  induction fuel with
  | zero => intro pq e he; simp [backtrace] at he
  | succ f ih =>
    intro pq e he
    obtain ⟨i, j⟩ := pq
    rw [backtrace] at he
    cases hp : (mat a b i j).prev with
    | none => rw [hp] at he; simp at he
    | some p =>
      rw [hp] at he
      by_cases ht : (mat a b i j).type = edit_type.NONE
      · simp [ht] at he
        exact ih p e he
      · simp [ht] at he
        rcases he with he | he
        · subst he; exact ht
        · exact ih p e he

/-- Setting index k of a block of k+1 uninitialised slots followed by a
tail splits off the written slot. -/
theorem replicate_set (k : Nat) (T : List (Option edit)) (v : Option edit) :
    (List.replicate (k+1) (none : Option edit) ++ T).set k v =
      List.replicate k none ++ v :: T := by
  induction k with
  | zero => simp [List.replicate]
  | succ k ih =>
    simp only [List.replicate_succ, List.cons_append] at ih ⊢
    simp [ih]

/-- Closed form of the write-back loop: writing the collected cells at
descending indices starting at k fills the tail of the uninitialised
block with the reversed collection. -/
theorem scriptWriteAux_spec :
    ∀ (L : List edit) (k : Nat) (T : List (Option edit)), L.length ≤ k + 1 →
      scriptWriteAux (List.replicate (k+1) none ++ T) k L =
        List.replicate (k + 1 - L.length) none ++ L.reverse.map some ++ T := by
  intro L
  induction L with
  | nil => intro k T h; simp [scriptWriteAux]
  | cons c rest ih =>
    intro k T h
    rw [scriptWriteAux, replicate_set]
    cases k with
    | zero =>
      have hr : rest = [] := by
        cases rest with
        | nil => rfl
        | cons x xs => exact absurd h (by simp only [List.length_cons]; omega)
      subst hr
      simp [scriptWriteAux]
    | succ k2 =>
      have hlen : rest.length ≤ k2 + 1 := by simp only [List.length_cons] at h; omega
      rw [show k2 + 1 - 1 = k2 from by omega]
      rw [ih k2 (some c :: T) hlen]
      have harith : k2 + 1 + 1 - (c :: rest).length = k2 + 1 - rest.length := by
        simp only [List.length_cons]; omega
      rw [harith]
      simp [List.reverse_cons, List.map_append, List.append_assoc]

/-- Closed form of scriptWrite: an uninitialised prefix followed by the
reversed collected cells. -/
theorem scriptWrite_spec (d : Nat) (L : List edit) (h : L.length ≤ d) :
    scriptWrite d L = List.replicate (d - L.length) none ++ L.reverse.map some := by
  cases d with
  | zero =>
    have : L = [] := List.length_eq_zero.mp (by omega)
    subst this
    simp [scriptWrite, scriptWriteAux]
  | succ k =>
    unfold scriptWrite
    rw [show k + 1 - 1 = k from by omega]
    have := scriptWriteAux_spec L k [] h
    simp only [List.append_nil] at this
    exact this

/-- Reading the written entries of the script array gives back exactly
the reversed collection. -/
theorem filterMap_write (k : Nat) (M : List edit) :
    (List.replicate k (none : Option edit) ++ M.map some).filterMap id = M := by
  induction k with
  | zero =>
    simp only [List.replicate, List.nil_append]
    induction M with
    | nil => simp
    | cons m ms ihm => simp [ihm]
  | succ k ih => simp [List.replicate_succ, ih]

/-- The valid entries of the written script array are the reversed
collection of the backward walk. -/
theorem scriptWrite_filterMap (d : Nat) (L : List edit) (h : L.length ≤ d) :
    (scriptWrite d L).filterMap id = L.reverse := by
  rw [scriptWrite_spec d L h, filterMap_write]

/-- Scores are symmetric in the two strings: transposing the matrix and
swapping the strings leaves every score unchanged, because min3 is
invariant under swapping its first two arguments. -/
theorem score_symm (a b : List Char) (n : Nat) :
    ∀ i j, i + j ≤ n → (mat a b i j).score = (mat b a j i).score := by
  induction n with
  | zero =>
    intro i j h
    have hi : i = 0 := by omega
    have hj : j = 0 := by omega
    subst hi; subst hj
    rw [mat_score_left, mat_score_left]
  | succ n ih =>
    intro i j h
    rcases i with _ | i
    · rw [mat_score_top, mat_score_left]
    · rcases j with _ | j
      · rw [mat_score_left, mat_score_top]
      · rw [mat_score_succ, mat_score_succ]
        rw [ih i (j+1) (by omega), ih (i+1) j (by omega), ih i j (by omega),
          substitution_cost_symm]
        exact min3_comm12 _ _ _

/-- The distance computed by the matrix is symmetric. -/
theorem levenshtein_matrix_calculate_symm (a b : List Char) :
    levenshtein_matrix_calculate a b = levenshtein_matrix_calculate b a := by
  unfold levenshtein_matrix_calculate
  exact score_symm a b (a.length + b.length) a.length b.length (le_refl _)

/-- An in-range getD is a member of the list. -/
theorem getD_mem (l : List Char) (i : Nat) (d : Char) (h : i < l.length) :
    l.getD i d ∈ l := by
  rw [List.getD_eq_getElem l d h]
  exact List.getElem_mem h

/-- For strings sharing no character, every in-range substitution cost
is 1. -/
theorem substitution_cost_disjoint (a b : List Char) (hd : ∀ x ∈ a, x ∉ b)
    (i j : Nat) (hi : i < a.length) (hj : j < b.length) :
    substitution_cost a b i j = 1 := by
  unfold substitution_cost
  rw [if_neg]
  intro heq
  exact hd _ (getD_mem a i (Char.ofNat 0) hi) (heq ▸ getD_mem b j (Char.ofNat 0) hj)

/-- For strings sharing no character, every in-range score is the larger
of the two indices: on this family min3 always coincides with the true
minimum. -/
theorem score_max (a b : List Char) (hd : ∀ x ∈ a, x ∉ b) (n : Nat) :
    ∀ i j, i + j ≤ n → i ≤ a.length → j ≤ b.length →
      (mat a b i j).score = if i ≤ j then j else i := by
  induction n with
  | zero =>
    intro i j h _ _
    have hi : i = 0 := by omega
    have hj : j = 0 := by omega
    subst hi; subst hj
    rw [mat_score_left]
    split_ifs <;> omega
  | succ n ih =>
    intro i j h hi hj
    rcases i with _ | i
    · rw [mat_score_top]; split_ifs <;> omega
    · rcases j with _ | j
      · rw [mat_score_left]; split_ifs <;> omega
      · rw [mat_score_succ]
        rw [ih i (j+1) (by omega) (by omega) hj,
          ih (i+1) j (by omega) hi (by omega),
          ih i j (by omega) (by omega) (by omega),
          substitution_cost_disjoint a b hd i j (by omega) (by omega)]
        unfold min3
        split_ifs <;> omega

/-- For equal-length strings sharing no character, every diagonal interior
cell records a substitution from the diagonal predecessor. -/
theorem mat_diag_disjoint (a b : List Char) (hd : ∀ x ∈ a, x ∉ b)
    (hlen : a.length = b.length) (k : Nat) (hk : k < a.length) :
    (mat a b (k+1) (k+1)).type = edit_type.SUBSTITUTION ∧
    (mat a b (k+1) (k+1)).prev = some (k, k) := by
  have hblen : k < b.length := hlen ▸ hk
  have hcost : substitution_cost a b k k = 1 :=
    substitution_cost_disjoint a b hd k k hk hblen
  have h1 : (mat a b k (k+1)).score = k + 1 := by
    rw [score_max a b hd (k + (k+1)) k (k+1) (le_refl _) (by omega) (by omega)]
    split_ifs <;> omega
  have h2 : (mat a b (k+1) k).score = k + 1 := by
    rw [score_max a b hd ((k+1) + k) (k+1) k (le_refl _) (by omega) (by omega)]
    split_ifs <;> omega
  have h3 : (mat a b k k).score = k := by
    rw [score_max a b hd (k + k) k k (le_refl _) (by omega) (by omega)]
    split_ifs <;> omega
  rw [mat_succ, h1, h2, h3, hcost]
  rw [cell_fill_sub _ _ _ _ _ _ _ _ _ _ (by rw [min3_eq_third_of_eq_lt]; omega)
    (by rw [min3_eq_third_of_eq_lt]; omega)]
  constructor
  · simp
  · simp

/-- For equal-length strings sharing no character, the backward walk from
a diagonal cell collects exactly one substitution cell per diagonal
step. -/
theorem backtrace_diag_disjoint (a b : List Char) (hd : ∀ x ∈ a, x ∉ b)
    (hlen : a.length = b.length) :
    ∀ k fuel, k ≤ a.length → k ≤ fuel →
      (backtrace a b fuel (k, k)).length = k ∧
      ∀ e ∈ backtrace a b fuel (k, k), e.type = edit_type.SUBSTITUTION := by
  intro k
  induction k with
  | zero =>
    intro fuel _ _
    cases fuel with
    | zero => simp [backtrace]
    | succ f =>
      rw [backtrace, mat_prev_border a b 0 0 (Or.inl rfl)]
      simp
  | succ k ih =>
    intro fuel hk hfuel
    cases fuel with
    | zero => omega
    | succ f =>
      obtain ⟨htype, hprev⟩ := mat_diag_disjoint a b hd hlen k (by omega)
      rw [backtrace, hprev]
      have hne : ¬((mat a b (k+1) (k+1)).type = edit_type.NONE) := by
        rw [htype]; intro hcontra; exact absurd hcontra (by simp)
      obtain ⟨ihlen, ihmem⟩ := ih f (by omega) (by omega)
      rw [if_neg hne]
      constructor
      · simp [ihlen]
      · intro e he
        simp only [List.singleton_append, List.mem_cons] at he
        rcases he with he | he
        · subst he; exact htype
        · exact ihmem e he

/-! ## Claims -/

/-- C1: the DP-table invariant fails on the code.  The borders are correct
and the returned distance is the final score, but at strings bab and aba
the cell (3,3) records score 3 while the minimum of its three candidates
del, ins, subst (computed from the code's own table) is 2: min3 returns
its third argument when the first two tie strictly below it, so the score
is not min(del, ins, subst) and the returned distance is 3 instead of the
Levenshtein distance 2. -/
theorem claim_c1_min_invariant_fails :
    (mat ['b','a','b'] ['a','b','a'] 3 3).score = 3 ∧
    Nat.min ((mat ['b','a','b'] ['a','b','a'] 2 3).score + 1)
      (Nat.min ((mat ['b','a','b'] ['a','b','a'] 3 2).score + 1)
        ((mat ['b','a','b'] ['a','b','a'] 2 2).score +
          substitution_cost ['b','a','b'] ['a','b','a'] 2 2)) = 2 ∧
    (mat ['b','a','b'] ['a','b','a'] 3 3).score ≠
      Nat.min ((mat ['b','a','b'] ['a','b','a'] 2 3).score + 1)
        (Nat.min ((mat ['b','a','b'] ['a','b','a'] 3 2).score + 1)
          ((mat ['b','a','b'] ['a','b','a'] 2 2).score +
            substitution_cost ['b','a','b'] ['a','b','a'] 2 2)) ∧
    (levenshtein_distance true true ['b','a','b'] ['a','b','a']).1 = 3 := by
  decide

/-- C2 counterexample: at strings bab and aba, cell (3,3), the candidates
are del = 2, ins = 2, subst = 3, so the minimum 2 is attained by a tying
deletion candidate, yet the recorded kind is SUBSTITUTION (not DELETION)
and the recorded predecessor is the diagonal cell (2,2) (not (2,3)):
the claimed precedence fails. -/
theorem claim_c2_counterexample :
    (mat ['b','a','b'] ['a','b','a'] 2 3).score + 1 = 2 ∧
    (mat ['b','a','b'] ['a','b','a'] 3 2).score + 1 = 2 ∧
    (mat ['b','a','b'] ['a','b','a'] 2 2).score +
      substitution_cost ['b','a','b'] ['a','b','a'] 2 2 = 3 ∧
    (mat ['b','a','b'] ['a','b','a'] 3 3).type ≠ edit_type.DELETION ∧
    (mat ['b','a','b'] ['a','b','a'] 3 3).prev ≠ some (2, 3) ∧
    (mat ['b','a','b'] ['a','b','a'] 3 3).type = edit_type.SUBSTITUTION ∧
    (mat ['b','a','b'] ['a','b','a'] 3 3).prev = some (2, 2) := by
  decide

/-- C2 amended: at every interior cell whose candidate triple is not in
the min3 failure case del == ins < subst, the recorded kind and
predecessor follow the precedence deletion first, then insertion, then
substitution: a tying deletion candidate yields DELETION with predecessor
(i-1, j); otherwise a tying insertion candidate yields INSERTION with
predecessor (i, j-1); otherwise the substitution outcome (SUBSTITUTION on
differing characters, NONE on equal ones) with predecessor (i-1, j-1). -/
theorem claim_c2_tie_break (a b : List Char) (i j : Nat)
    (hne : ¬((mat a b i (j+1)).score + 1 = (mat a b (i+1) j).score + 1 ∧
      (mat a b i (j+1)).score + 1 <
        (mat a b i j).score + substitution_cost a b i j)) :
    ((mat a b i (j+1)).score + 1 ≤ (mat a b (i+1) j).score + 1 ∧
     (mat a b i (j+1)).score + 1 ≤
        (mat a b i j).score + substitution_cost a b i j →
      (mat a b (i+1) (j+1)).type = edit_type.DELETION ∧
      (mat a b (i+1) (j+1)).prev = some (i, j+1)) ∧
    (¬((mat a b i (j+1)).score + 1 ≤ (mat a b (i+1) j).score + 1 ∧
       (mat a b i (j+1)).score + 1 ≤
          (mat a b i j).score + substitution_cost a b i j) →
     (mat a b (i+1) j).score + 1 ≤
        (mat a b i j).score + substitution_cost a b i j →
      (mat a b (i+1) (j+1)).type = edit_type.INSERTION ∧
      (mat a b (i+1) (j+1)).prev = some (i+1, j)) ∧
    (¬((mat a b i (j+1)).score + 1 ≤ (mat a b (i+1) j).score + 1 ∧
       (mat a b i (j+1)).score + 1 ≤
          (mat a b i j).score + substitution_cost a b i j) →
     ¬((mat a b (i+1) j).score + 1 ≤
        (mat a b i j).score + substitution_cost a b i j) →
      (mat a b (i+1) (j+1)).type =
        (if 0 < substitution_cost a b i j then edit_type.SUBSTITUTION
         else edit_type.NONE) ∧
      (mat a b (i+1) (j+1)).prev = some (i, j)) := by
  refine ⟨?_, ?_, ?_⟩
  · rintro ⟨h1, h2⟩
    have hm := min3_del_of _ _ _ hne ⟨h1, h2⟩
    rw [mat_succ, cell_fill_del _ _ _ _ _ _ _ _ _ _ hm]
    exact ⟨rfl, rfl⟩
  · intro hnd hns
    have hm := min3_ins_of _ _ _ hnd hns
    rw [mat_succ, cell_fill_ins _ _ _ _ _ _ _ _ _ _ hm.2 hm.1]
    exact ⟨rfl, rfl⟩
  · intro hnd hns
    have hm := min3_sub_of _ _ _ hnd hns
    rw [mat_succ, cell_fill_sub _ _ _ _ _ _ _ _ _ _ hm.2.1 hm.2.2]
    exact ⟨rfl, rfl⟩

/-- C2 witness: at strings ab and cb, cell (1,1), the candidates are
del = 2, ins = 2, subst = 1, outside the min3 failure case, and the cell
records a substitution from the diagonal predecessor. -/
theorem claim_c2_tie_break_witness :
    ¬((mat ['a','b'] ['c','b'] 0 1).score + 1 =
        (mat ['a','b'] ['c','b'] 1 0).score + 1 ∧
      (mat ['a','b'] ['c','b'] 0 1).score + 1 <
        (mat ['a','b'] ['c','b'] 0 0).score +
          substitution_cost ['a','b'] ['c','b'] 0 0) ∧
    (mat ['a','b'] ['c','b'] 1 1).type = edit_type.SUBSTITUTION ∧
    (mat ['a','b'] ['c','b'] 1 1).prev = some (0, 0) := by
  refine ⟨by decide, ?_, ?_⟩
  · have h := (claim_c2_tie_break ['a','b'] ['c','b'] 0 0 (by decide)).2.2
      (by decide) (by decide)
    rw [h.1]
    decide
  · have h := (claim_c2_tie_break ['a','b'] ['c','b'] 0 0 (by decide)).2.2
      (by decide) (by decide)
    exact h.2

/-- C3: the script length invariant fails on the code.  For strings ab and
b the returned distance is 1, but the backward walk stops at the border
cell (1,0), whose score is still 1, after skipping the NONE cell (2,1), so
no edit at all is written: the single slot the caller may read is
uninitialised, and the number of written Edit entries is 0, not 1. -/
theorem claim_c3_script_length_mismatch :
    (levenshtein_distance true true ['a','b'] ['b']).1 = 1 ∧
    (levenshtein_distance true true ['a','b'] ['b']).2 =
      ScriptOut.written [none] ∧
    writtenEntries (levenshtein_distance true true ['a','b'] ['b']).2 = [] := by
  decide

/-- C4: for non-empty strings the script entries actually written are
exactly the reverse of the discovery order of the backward walk from the
final cell, and none of them is a NONE (NoOp) cell: equal-character cells
are skipped during the backtrace. -/
theorem claim_c4_script_reversed_no_noop (a b : List Char)
    (ha : a ≠ []) (hb : b ≠ []) :
    writtenEntries (levenshtein_distance true true a b).2 =
      (backtrace a b (a.length + b.length) (a.length, b.length)).reverse ∧
    ∀ e ∈ writtenEntries (levenshtein_distance true true a b).2,
      e.type ≠ edit_type.NONE := by
  have ha0 : ¬(a.length = 0) := fun h => ha (List.length_eq_zero.mp h)
  have hb0 : ¬(b.length = 0) := fun h => hb (List.length_eq_zero.mp h)
  have hres : levenshtein_distance true true a b =
      (levenshtein_matrix_calculate a b,
        .written (scriptWrite (levenshtein_matrix_calculate a b)
          (backtrace a b (a.length + b.length) (a.length, b.length)))) := by
    simp only [levenshtein_distance]
    rw [if_neg ha0, if_neg hb0, if_neg (by simp), if_neg (by simp)]
  rw [hres]
  simp only [writtenEntries]
  have hlen : (backtrace a b (a.length + b.length) (a.length, b.length)).length ≤
      levenshtein_matrix_calculate a b :=
    backtrace_length_le a b (a.length + b.length) a.length b.length
  constructor
  · exact scriptWrite_filterMap _ _ hlen
  · intro e he
    rw [scriptWrite_filterMap _ _ hlen] at he
    exact backtrace_no_none a b (a.length + b.length) (a.length, b.length) e
      (List.mem_reverse.mp he)

/-- C4 witness: the non-empty pair ab, cb; the written entries are the
reversed discovery list and contain no NONE cell. -/
theorem claim_c4_witness :
    ((['a','b'] : List Char) ≠ [] ∧ (['c','b'] : List Char) ≠ []) ∧
    (writtenEntries (levenshtein_distance true true ['a','b'] ['c','b']).2 =
      (backtrace ['a','b'] ['c','b'] (2 + 2) (2, 2)).reverse ∧
     ∀ e ∈ writtenEntries (levenshtein_distance true true ['a','b'] ['c','b']).2,
      e.type ≠ edit_type.NONE) :=
  ⟨⟨by decide, by decide⟩,
    claim_c4_script_reversed_no_noop ['a','b'] ['c','b'] (by decide) (by decide)⟩

/-- C5: the empty-string distances are right but no script is produced.
levenshtein_distance returns len(B) for empty A and len(A) for empty B,
but on both paths it returns before ever writing through the script
pointer, so the claimed all-insertion (resp. all-deletion) script does not
exist: the caller's pointer is left untouched. -/
theorem claim_c5_empty_no_script :
    levenshtein_distance true true [] ['a'] = (1, ScriptOut.untouched) ∧
    levenshtein_distance true true ['a'] [] = (1, ScriptOut.untouched) := by
  decide

/-- C6: allocation failure is not distinguishable from a genuine zero-cost
match.  On matrix-allocation failure the function returns 0 with *script =
NULL; on script-allocation failure it also returns 0 with *script = NULL;
but a genuine comparison of equal strings also returns distance 0, and
when its malloc(0) yields NULL it returns exactly the same (0, NULL)
pair, so the failure is silently mistakable for a zero-cost match. -/
theorem claim_c6_alloc_failure_ambiguous :
    levenshtein_distance false true ['a'] ['b'] = (0, ScriptOut.null) ∧
    levenshtein_distance true false ['a'] ['b'] = (0, ScriptOut.null) ∧
    (levenshtein_distance true true ['a'] ['a']).1 = 0 ∧
    levenshtein_distance true false ['a'] ['a'] = (0, ScriptOut.null) := by
  decide

/-- C7: the distance returned by levenshtein_distance is symmetric in its
two strings, for every allocation outcome: the empty-string shortcuts are
symmetric, failures return 0 on both sides, and the matrix scores
transpose because min3 is invariant under swapping its first two
arguments. -/
theorem claim_c7_distance_symmetric (matOk scriptOk : Bool) (a b : List Char) :
    (levenshtein_distance matOk scriptOk a b).1 =
      (levenshtein_distance matOk scriptOk b a).1 := by
  simp only [levenshtein_distance]
  by_cases ha : a.length = 0
  · by_cases hb : b.length = 0 <;> simp [ha, hb]
  · by_cases hb : b.length = 0
    · simp [ha, hb]
    · cases matOk
      · simp [ha, hb]
      · cases scriptOk
        · simp [ha, hb]
        · simp [ha, hb, levenshtein_matrix_calculate_symm a b]

/-- C8: the triangle inequality fails for the computed distance.  Because
min3 misreports the minimum at bab vs aba, the code returns 3 for that
pair while it returns 1 for bab vs ab and 1 for ab vs aba, and 3 > 1 + 1.
(The true Levenshtein distance between bab and aba is 2, which would
satisfy the inequality.) -/
theorem claim_c8_triangle_inequality_fails :
    (levenshtein_distance true true ['b','a','b'] ['a','b','a']).1 = 3 ∧
    (levenshtein_distance true true ['b','a','b'] ['a','b']).1 = 1 ∧
    (levenshtein_distance true true ['a','b'] ['a','b','a']).1 = 1 ∧
    ¬((levenshtein_distance true true ['b','a','b'] ['a','b','a']).1 ≤
      (levenshtein_distance true true ['b','a','b'] ['a','b']).1 +
        (levenshtein_distance true true ['a','b'] ['a','b','a']).1) := by
  decide

/-- C9: for equal-length strings sharing no character, the returned
distance is the common length and the written script is exactly that many
substitutions: on this family the substitution candidate is strictly
smaller than the tying delete and insert candidates on the diagonal, so
min3 behaves correctly and every diagonal cell records a substitution. -/
theorem claim_c9_disjoint_all_substitutions (a b : List Char)
    (hlen : a.length = b.length) (hd : ∀ x ∈ a, x ∉ b) :
    (levenshtein_distance true true a b).1 = a.length ∧
    (writtenEntries (levenshtein_distance true true a b).2).length = a.length ∧
    ∀ e ∈ writtenEntries (levenshtein_distance true true a b).2,
      e.type = edit_type.SUBSTITUTION := by
  by_cases ha : a.length = 0
  · have hb : b.length = 0 := by omega
    refine ⟨?_, ?_, ?_⟩
    · simp only [levenshtein_distance]
      rw [if_pos ha]
      omega
    · simp only [levenshtein_distance]
      rw [if_pos ha]
      simp only [writtenEntries]
      simp [ha]
    · intro e he
      simp only [levenshtein_distance] at he
      rw [if_pos ha] at he
      simp [writtenEntries] at he
  · have hb : ¬(b.length = 0) := by omega
    have hres : levenshtein_distance true true a b =
        (levenshtein_matrix_calculate a b,
          .written (scriptWrite (levenshtein_matrix_calculate a b)
            (backtrace a b (a.length + b.length) (a.length, b.length)))) := by
      simp only [levenshtein_distance]
      rw [if_neg ha, if_neg hb, if_neg (by simp), if_neg (by simp)]
    have hdist : levenshtein_matrix_calculate a b = a.length := by
      unfold levenshtein_matrix_calculate
      rw [score_max a b hd (a.length + b.length) a.length b.length (le_refl _)
        (le_refl _) (le_refl _)]
      split_ifs <;> omega
    have hwalk : (backtrace a b (a.length + b.length) (a.length, b.length)).length
          = a.length ∧
        ∀ e ∈ backtrace a b (a.length + b.length) (a.length, b.length),
          e.type = edit_type.SUBSTITUTION := by
      rw [← hlen]
      exact backtrace_diag_disjoint a b hd hlen a.length (a.length + a.length)
        (le_refl _) (by omega)
    rw [hres]
    simp only [writtenEntries]
    have hfm := scriptWrite_filterMap (levenshtein_matrix_calculate a b)
      (backtrace a b (a.length + b.length) (a.length, b.length))
      (by rw [hdist, hwalk.1])
    refine ⟨hdist, ?_, ?_⟩
    · rw [hfm, List.length_reverse, hwalk.1]
    · intro e he
      rw [hfm] at he
      exact hwalk.2 e (List.mem_reverse.mp he)

/-- C9 witness: the disjoint equal-length pair ab, cd has distance 2 and a
script of exactly two substitutions. -/
theorem claim_c9_witness :
    ((['a','b'] : List Char).length = (['c','d'] : List Char).length ∧
     ∀ x ∈ (['a','b'] : List Char), x ∉ (['c','d'] : List Char)) ∧
    ((levenshtein_distance true true ['a','b'] ['c','d']).1 = 2 ∧
     (writtenEntries (levenshtein_distance true true ['a','b'] ['c','d']).2).length
        = 2 ∧
     ∀ e ∈ writtenEntries (levenshtein_distance true true ['a','b'] ['c','d']).2,
      e.type = edit_type.SUBSTITUTION) :=
  ⟨⟨by decide, by decide⟩,
    claim_c9_disjoint_all_substitutions ['a','b'] ['c','d'] (by decide) (by decide)⟩

/-- C10 counterexample: at strings bab and aba, cell (3,3) produces the
triple del = 2, ins = 2, subst = 3: del equals ins, yet subst is not at
most del, so the claimed invariant protecting min3 fails on a produced
triple. -/
theorem claim_c10_counterexample :
    (mat ['b','a','b'] ['a','b','a'] 2 3).score + 1 =
      (mat ['b','a','b'] ['a','b','a'] 3 2).score + 1 ∧
    ¬((mat ['b','a','b'] ['a','b','a'] 2 2).score +
        substitution_cost ['b','a','b'] ['a','b','a'] 2 2 ≤
      (mat ['b','a','b'] ['a','b','a'] 2 3).score + 1) := by
  decide

/-- C10 amended: min3 is indeed not a correct three-way minimum (its first
two arguments equal and below the third make it return the third), and the
protecting invariant does not hold for every produced triple: at strings
bab and aba, cell (3,3) produces del = 2, ins = 2, subst = 3, so the
recorded score is 3 while the true minimum of the candidates is 2. -/
theorem claim_c10_min3_flaw_reachable :
    min3 2 2 3 = 3 ∧
    (mat ['b','a','b'] ['a','b','a'] 2 3).score + 1 = 2 ∧
    (mat ['b','a','b'] ['a','b','a'] 3 2).score + 1 = 2 ∧
    (mat ['b','a','b'] ['a','b','a'] 2 2).score +
      substitution_cost ['b','a','b'] ['a','b','a'] 2 2 = 3 ∧
    (mat ['b','a','b'] ['a','b','a'] 3 3).score = 3 := by
  decide
